import Mathlib

/-!
# decomment.c : a comment-removing DFA

Shallow embedding of `src/decomment.c`.

* A character read by `getchar()` is an `int` in `0..255`; it is modelled as a
  `Nat`.  The handlers only compare it for equality with character constants
  and hand it to `putchar`, so they are defined on every `Nat`.
  Character constants: `'\''` = 39, `'"'` = 34, `'/'` = 47, `'*'` = 42,
  `'\\'` = 92, `'\n'` = 10, `' '` = 32.
* Each `handleXState (int c)` returns the next state; the bytes it writes with
  `putchar` are returned next to it, in the order written.
* `main` is a loop over standard input followed by the end-of-file handling.
  The loop is `mainLoop` (a left fold of `loopBody`), the local variables
  `state`, `lineCount`, `commLine` together with everything written to
  standard output so far form a `Machine`.
* `lineCount` and `commLine` are C `int`s.  Two readings of the same loop are
  given.  In `loopBody`, `mainLoop`, `main` the counters are unbounded `Int`s;
  this is the reading used where the counters are taken as unbounded integers
  and where only the state, the output or the exit status matter, none of which
  depends on the counters.  In `loopBody32`, `mainLoop32`, `main32` the counters
  are 32-bit `int`s: every value stored in them, and the difference printed in
  the message, is reduced by `int32` (two's complement wrap-around, what the
  compiled program does once more than `2^31 - 2` newline characters have been
  read).  `main32_eq` relates the two: same output and exit status, the reported
  line reduced by `int32`.
-/

namespace Decomment

/-- The DFA states, `enum Statetype` (decomment.c:8). -/
inductive Statetype where
  | START
  | SN_QUOTES
  | DB_QUOTES
  | SN_QUOTE_ESC
  | DB_QUOTE_ESC
  | ONE_SLASH
  | ONE_STAR
  | TWO_STAR
  deriving DecidableEq, Repr

open Statetype

/-- Embedding of `handleStartState` (decomment.c:18-40). -/
def handleStartState (c : Nat) : Statetype × List Nat :=
  if c = 39 then (SN_QUOTES, [c])
  else if c = 34 then (DB_QUOTES, [c])
  else if c = 47 then (ONE_SLASH, [])
  else (START, [c])

/-- Embedding of `handleSnQuotesState` (decomment.c:46-62): `putchar(c)` first,
then the choice of the next state. -/
def handleSnQuotesState (c : Nat) : Statetype × List Nat :=
  if c = 92 then (SN_QUOTE_ESC, [c])
  else if c = 39 then (START, [c])
  else (SN_QUOTES, [c])

/-- Embedding of `handleSnQuoteEscState` (decomment.c:68-73). -/
def handleSnQuoteEscState (c : Nat) : Statetype × List Nat :=
  (SN_QUOTES, [c])

/-- Embedding of `handleDbQuotesState` (decomment.c:79-93). -/
def handleDbQuotesState (c : Nat) : Statetype × List Nat :=
  if c = 92 then (DB_QUOTE_ESC, [c])
  else if c = 34 then (START, [c])
  else (DB_QUOTES, [c])

/-- Embedding of `handleDbQuoteEscState` (decomment.c:99-104). -/
def handleDbQuoteEscState (c : Nat) : Statetype × List Nat :=
  (DB_QUOTES, [c])

/-- Embedding of `handleOneSlashState` (decomment.c:109-139). -/
def handleOneSlashState (c : Nat) : Statetype × List Nat :=
  if c = 42 then (ONE_STAR, [32])
  else if c = 47 then (ONE_SLASH, [c])
  else if c = 34 then (DB_QUOTES, [47, c])
  else if c = 39 then (SN_QUOTES, [47, c])
  else (START, [47, c])

/-- Embedding of `handleOneStarState` (decomment.c:143-159). -/
def handleOneStarState (c : Nat) : Statetype × List Nat :=
  if c = 42 then (TWO_STAR, [])
  else if c = 10 then (ONE_STAR, [c])
  else (ONE_STAR, [])

/-- Embedding of `handleTwoStarState` (decomment.c:163-182). -/
def handleTwoStarState (c : Nat) : Statetype × List Nat :=
  if c = 47 then (START, [])
  else if c = 42 then (TWO_STAR, [])
  else (ONE_STAR, if c = 10 then [c] else [])

/-- The local variables of `main` (decomment.c:190-193) together with the bytes
written to standard output so far. -/
structure Machine where
  state : Statetype
  lineCount : Int
  commLine : Int
  out : List Nat
  deriving DecidableEq, Repr

/-- The values of the locals when the loop of `main` is entered
(decomment.c:191-193), nothing written yet. -/
def init : Machine :=
  { state := START, lineCount := 1, commLine := 0, out := [] }

/-- One iteration of the `while` loop of `main` (decomment.c:197-240) on the
character `c`: the update of `lineCount`, then the `switch` on the state. -/
def loopBody (m : Machine) (c : Nat) : Machine :=
  let lineCount := if c = 10 then m.lineCount + 1 else m.lineCount
  match m.state with
  | START =>
      let r := handleStartState c
      { state := r.1, lineCount := lineCount,
        commLine := if c = 10 then 0 else m.commLine, out := m.out ++ r.2 }
  | SN_QUOTES =>
      let r := handleSnQuotesState c
      { state := r.1, lineCount := lineCount, commLine := m.commLine, out := m.out ++ r.2 }
  | SN_QUOTE_ESC =>
      let r := handleSnQuoteEscState c
      { state := r.1, lineCount := lineCount, commLine := m.commLine, out := m.out ++ r.2 }
  | DB_QUOTES =>
      let r := handleDbQuotesState c
      { state := r.1, lineCount := lineCount, commLine := m.commLine, out := m.out ++ r.2 }
  | DB_QUOTE_ESC =>
      let r := handleDbQuoteEscState c
      { state := r.1, lineCount := lineCount, commLine := m.commLine, out := m.out ++ r.2 }
  | ONE_SLASH =>
      let r := handleOneSlashState c
      { state := r.1, lineCount := lineCount, commLine := m.commLine, out := m.out ++ r.2 }
  | ONE_STAR =>
      let r := handleOneStarState c
      { state := r.1, lineCount := lineCount,
        commLine := if c = 10 then m.commLine + 1 else m.commLine, out := m.out ++ r.2 }
  | TWO_STAR =>
      let r := handleTwoStarState c
      { state := r.1, lineCount := lineCount,
        commLine := if c = 10 then m.commLine + 1 else m.commLine, out := m.out ++ r.2 }

/-- The `while ((c = getchar()) != EOF)` loop of `main` run over the whole
input, starting from the machine `m`. -/
def mainLoop (m : Machine) (input : List Nat) : Machine :=
  input.foldl loopBody m

/-- The value of `EXIT_FAILURE` of `<stdlib.h>`. -/
def EXIT_FAILURE : Nat := 1

/-- What a run of the program leaves behind: the bytes on standard output, the
line number `N` of the message `Error: line N: unterminated comment` on
standard error (`none` when nothing is written there), and the exit status. -/
structure Result where
  stdout : List Nat
  stderr : Option Int
  exitCode : Nat
  deriving DecidableEq, Repr

/-- Embedding of `main` (decomment.c:189-259): the loop, then the end-of-file
handling (decomment.c:243-258). -/
def main (input : List Nat) : Result :=
  let m := mainLoop init input
  if m.state = ONE_SLASH then
    { stdout := m.out ++ [47], stderr := none, exitCode := 0 }
  else if m.state = ONE_STAR then
    { stdout := m.out, stderr := some (m.lineCount - m.commLine), exitCode := EXIT_FAILURE }
  else if m.state = TWO_STAR then
    { stdout := m.out, stderr := some (m.lineCount - m.commLine), exitCode := EXIT_FAILURE }
  else
    { stdout := m.out, stderr := none, exitCode := 0 }

/-! ## The counters as 32-bit `int`s -/

/-- The value held by a 32-bit `int` after a computation whose mathematical
result is `x`: reduction modulo `2^32` into `-2^31 .. 2^31 - 1`. -/
def int32 (x : Int) : Int :=
  (x + 2147483648) % 4294967296 - 2147483648

/-- One iteration of the `while` loop of `main` (decomment.c:197-240) with
`lineCount` and `commLine` as 32-bit `int`s: as `loopBody`, each `++` followed
by the reduction `int32`. -/
def loopBody32 (m : Machine) (c : Nat) : Machine :=
  let lineCount := if c = 10 then int32 (m.lineCount + 1) else m.lineCount
  match m.state with
  | START =>
      let r := handleStartState c
      { state := r.1, lineCount := lineCount,
        commLine := if c = 10 then 0 else m.commLine, out := m.out ++ r.2 }
  | SN_QUOTES =>
      let r := handleSnQuotesState c
      { state := r.1, lineCount := lineCount, commLine := m.commLine, out := m.out ++ r.2 }
  | SN_QUOTE_ESC =>
      let r := handleSnQuoteEscState c
      { state := r.1, lineCount := lineCount, commLine := m.commLine, out := m.out ++ r.2 }
  | DB_QUOTES =>
      let r := handleDbQuotesState c
      { state := r.1, lineCount := lineCount, commLine := m.commLine, out := m.out ++ r.2 }
  | DB_QUOTE_ESC =>
      let r := handleDbQuoteEscState c
      { state := r.1, lineCount := lineCount, commLine := m.commLine, out := m.out ++ r.2 }
  | ONE_SLASH =>
      let r := handleOneSlashState c
      { state := r.1, lineCount := lineCount, commLine := m.commLine, out := m.out ++ r.2 }
  | ONE_STAR =>
      let r := handleOneStarState c
      { state := r.1, lineCount := lineCount,
        commLine := if c = 10 then int32 (m.commLine + 1) else m.commLine,
        out := m.out ++ r.2 }
  | TWO_STAR =>
      let r := handleTwoStarState c
      { state := r.1, lineCount := lineCount,
        commLine := if c = 10 then int32 (m.commLine + 1) else m.commLine,
        out := m.out ++ r.2 }

/-- The loop of `main` over the whole input, counters as 32-bit `int`s. -/
def mainLoop32 (m : Machine) (input : List Nat) : Machine :=
  input.foldl loopBody32 m

/-- Embedding of `main` (decomment.c:189-259) with the counters as 32-bit
`int`s: the loop, then the end-of-file handling, where the number printed is
the `int` value of `lineCount - commLine`. -/
def main32 (input : List Nat) : Result :=
  let m := mainLoop32 init input
  if m.state = ONE_SLASH then
    { stdout := m.out ++ [47], stderr := none, exitCode := 0 }
  else if m.state = ONE_STAR then
    { stdout := m.out, stderr := some (int32 (m.lineCount - m.commLine)),
      exitCode := EXIT_FAILURE }
  else if m.state = TWO_STAR then
    { stdout := m.out, stderr := some (int32 (m.lineCount - m.commLine)),
      exitCode := EXIT_FAILURE }
  else
    { stdout := m.out, stderr := none, exitCode := 0 }

/-- The machine `m` of the unbounded reading seen with 32-bit counters. -/
def wrapMachine (m : Machine) : Machine :=
  { state := m.state, lineCount := int32 m.lineCount, commLine := int32 m.commLine,
    out := m.out }

/-! ## Projections of the loop used in the proofs -/

/-- The state and the bytes written by one iteration of the loop, as a function
of the state before it and the character read: the `switch` of `main`
(decomment.c:203-239) without the counters. -/
def step (st : Statetype) (c : Nat) : Statetype × List Nat :=
  match st with
  | START => handleStartState c
  | SN_QUOTES => handleSnQuotesState c
  | SN_QUOTE_ESC => handleSnQuoteEscState c
  | DB_QUOTES => handleDbQuotesState c
  | DB_QUOTE_ESC => handleDbQuoteEscState c
  | ONE_SLASH => handleOneSlashState c
  | ONE_STAR => handleOneStarState c
  | TWO_STAR => handleTwoStarState c

/-- The state reached from `st` after the characters of `t`. -/
def runState (st : Statetype) : List Nat → Statetype
  | [] => st
  | c :: t => runState (step st c).1 t

/-- The bytes written while reading the characters of `t` from state `st`. -/
def runOut (st : Statetype) : List Nat → List Nat
  | [] => []
  | c :: t => (step st c).2 ++ runOut (step st c).1 t

/-- The bytes written by the end-of-file handling in state `st`
(decomment.c:243-246). -/
def flush (st : Statetype) : List Nat :=
  if st = ONE_SLASH then [47] else []

/-- The states in which the machine is inside a comment. -/
def inComment (st : Statetype) : Prop :=
  st = ONE_STAR ∨ st = TWO_STAR

instance (st : Statetype) : Decidable (inComment st) := by
  unfold inComment; infer_instance

/-! ## The transition table of the specification -/

/-- The states named by the specification (spec section 3). -/
inductive SpecState where
  | Plain
  | InSingleQuote
  | InDoubleQuote
  | SingleQuoteEscape
  | DoubleQuoteEscape
  | SlashSeen
  | InComment
  | StarSeen
  deriving DecidableEq, Repr

/-- The byte classes heading the columns of the transition table
(spec section 4.1). -/
inductive ByteClass where
  | squote
  | dquote
  | slash
  | star
  | lineTerm
  | other
  deriving DecidableEq, Repr

/-- The column of the transition table a byte belongs to. -/
def byteClass (b : Nat) : ByteClass :=
  if b = 39 then ByteClass.squote
  else if b = 34 then ByteClass.dquote
  else if b = 47 then ByteClass.slash
  else if b = 42 then ByteClass.star
  else if b = 10 then ByteClass.lineTerm
  else ByteClass.other

/-- The transition table of spec section 4.1, written from the words of the
specification, cell by cell: the next state and the emission.  In the rows of
the two quote states the column `other` sends the escape marker (byte 92) to
the escape state. -/
def specTable (s : SpecState) (b : Nat) : SpecState × List Nat :=
  match s, byteClass b with
  | .Plain, .squote => (.InSingleQuote, [b])
  | .Plain, .dquote => (.InDoubleQuote, [b])
  | .Plain, .slash => (.SlashSeen, [])
  | .Plain, .star => (.Plain, [b])
  | .Plain, .lineTerm => (.Plain, [b])
  | .Plain, .other => (.Plain, [b])
  | .InSingleQuote, .squote => (.Plain, [b])
  | .InSingleQuote, .dquote => (.InSingleQuote, [b])
  | .InSingleQuote, .slash => (.InSingleQuote, [b])
  | .InSingleQuote, .star => (.InSingleQuote, [b])
  | .InSingleQuote, .lineTerm => (.InSingleQuote, [b])
  | .InSingleQuote, .other =>
      (if b = 92 then .SingleQuoteEscape else .InSingleQuote, [b])
  | .SingleQuoteEscape, _ => (.InSingleQuote, [b])
  | .InDoubleQuote, .squote => (.InDoubleQuote, [b])
  | .InDoubleQuote, .dquote => (.Plain, [b])
  | .InDoubleQuote, .slash => (.InDoubleQuote, [b])
  | .InDoubleQuote, .star => (.InDoubleQuote, [b])
  | .InDoubleQuote, .lineTerm => (.InDoubleQuote, [b])
  | .InDoubleQuote, .other =>
      (if b = 92 then .DoubleQuoteEscape else .InDoubleQuote, [b])
  | .DoubleQuoteEscape, _ => (.InDoubleQuote, [b])
  | .SlashSeen, .squote => (.InSingleQuote, [47, b])
  | .SlashSeen, .dquote => (.InDoubleQuote, [47, b])
  | .SlashSeen, .slash => (.SlashSeen, [47])
  | .SlashSeen, .star => (.InComment, [32])
  | .SlashSeen, .lineTerm => (.Plain, [47, b])
  | .SlashSeen, .other => (.Plain, [47, b])
  | .InComment, .squote => (.InComment, [])
  | .InComment, .dquote => (.InComment, [])
  | .InComment, .slash => (.InComment, [])
  | .InComment, .star => (.StarSeen, [])
  | .InComment, .lineTerm => (.InComment, [b])
  | .InComment, .other => (.InComment, [])
  | .StarSeen, .squote => (.InComment, [])
  | .StarSeen, .dquote => (.InComment, [])
  | .StarSeen, .slash => (.Plain, [])
  | .StarSeen, .star => (.StarSeen, [])
  | .StarSeen, .lineTerm => (.StarSeen, [b])
  | .StarSeen, .other => (.InComment, [])

/-- The state of the specification each state of `enum Statetype` stands for. -/
def toSpec : Statetype → SpecState
  | START => .Plain
  | SN_QUOTES => .InSingleQuote
  | DB_QUOTES => .InDoubleQuote
  | SN_QUOTE_ESC => .SingleQuoteEscape
  | DB_QUOTE_ESC => .DoubleQuoteEscape
  | ONE_SLASH => .SlashSeen
  | ONE_STAR => .InComment
  | TWO_STAR => .StarSeen

/-! ## Predicates on runs -/

/-- No state visited from `st` while reading `t`, `st` itself and the last one
included, is a comment state. -/
def neverInComment (st : Statetype) : List Nat → Prop
  | [] => ¬ inComment st
  | c :: t => ¬ inComment st ∧ neverInComment (step st c).1 t

/-- How the state `st2` of a second run, over what a first run has written so
far, relates to the state `st` of the first run: a buffered slash of the first
run has not reached the second run yet or is buffered there too, a comment of
the first run is plain text for the second, and otherwise the states agree. -/
def Rerun (st st2 : Statetype) : Prop :=
  (st = ONE_SLASH ∧ (st2 = START ∨ st2 = ONE_SLASH)) ∨
    (inComment st ∧ st2 = START) ∨
    (¬ inComment st ∧ st ≠ ONE_SLASH ∧ st2 = st)

instance (st st2 : Statetype) : Decidable (Rerun st st2) := by
  unfold Rerun; infer_instance

/-! ## The loop and its projections -/

theorem loopBody_state (m : Machine) (c : Nat) :
    (loopBody m c).state = (step m.state c).1 := by
  unfold loopBody step
  cases m.state <;> rfl

theorem loopBody_out (m : Machine) (c : Nat) :
    (loopBody m c).out = m.out ++ (step m.state c).2 := by
  unfold loopBody step
  cases m.state <;> rfl

theorem mainLoop_nil (m : Machine) : mainLoop m [] = m := rfl

theorem mainLoop_cons (m : Machine) (c : Nat) (t : List Nat) :
    mainLoop m (c :: t) = mainLoop (loopBody m c) t := rfl

theorem mainLoop_append (m : Machine) (s t : List Nat) :
    mainLoop m (s ++ t) = mainLoop (mainLoop m s) t := by
  unfold mainLoop
  exact List.foldl_append _ _ _ _

theorem mainLoop_state (m : Machine) (t : List Nat) :
    (mainLoop m t).state = runState m.state t := by
  induction t generalizing m with
  | nil => rfl
  | cons c t ih => rw [mainLoop_cons, ih, loopBody_state]; rfl

theorem mainLoop_out (m : Machine) (t : List Nat) :
    (mainLoop m t).out = m.out ++ runOut m.state t := by
  induction t generalizing m with
  | nil => simp [mainLoop_nil, runOut]
  | cons c t ih =>
      rw [mainLoop_cons, ih, loopBody_state, loopBody_out]
      simp [runOut]

theorem runState_append (st : Statetype) (s t : List Nat) :
    runState st (s ++ t) = runState (runState st s) t := by
  induction s generalizing st with
  | nil => rfl
  | cons c s ih => simp [runState, ih]

theorem runOut_append (st : Statetype) (s t : List Nat) :
    runOut st (s ++ t) = runOut st s ++ runOut (runState st s) t := by
  induction s generalizing st with
  | nil => rfl
  | cons c s ih => simp [runOut, runState, ih]

theorem main_stdout (t : List Nat) :
    (main t).stdout = runOut START t ++ flush (runState START t) := by
  have hs : (mainLoop init t).state = runState START t := mainLoop_state init t
  have ho : (mainLoop init t).out = runOut START t := by
    rw [mainLoop_out]; rfl
  unfold main flush
  simp only [hs, ho]
  cases runState START t <;> simp

theorem main_exitCode (t : List Nat) :
    (main t).exitCode = if inComment (runState START t) then EXIT_FAILURE else 0 := by
  have hs : (mainLoop init t).state = runState START t := mainLoop_state init t
  unfold main inComment
  simp only [hs]
  cases runState START t <;> simp

theorem main_stderr (t : List Nat) :
    (main t).stderr =
      if inComment (runState START t) then
        some ((mainLoop init t).lineCount - (mainLoop init t).commLine)
      else none := by
  have hs : (mainLoop init t).state = runState START t := mainLoop_state init t
  unfold main inComment
  simp only [hs]
  cases runState START t <;> simp

theorem main_of_not_inComment (t : List Nat) (h : ¬ inComment (runState START t)) :
    main t = { stdout := runOut START t ++ flush (runState START t),
               stderr := none, exitCode := 0 } := by
  have h1 := main_stdout t
  have h2 := main_stderr t
  have h3 := main_exitCode t
  rw [if_neg h] at h2 h3
  cases hm : main t with
  | mk o e x =>
      rw [hm] at h1 h2 h3
      simp only at h1 h2 h3
      rw [h1, h2, h3]

theorem runState_of_mainLoop {p : List Nat} {st : Statetype}
    (h : (mainLoop init p).state = st) : runState START p = st := by
  rw [← h, mainLoop_state]; rfl

/-! ## Substrings of two bytes -/

theorem pair_infix_cons (a b x : Nat) (t : List Nat) :
    [a, b] <:+: x :: t ↔ (x = a ∧ ∃ u, t = b :: u) ∨ [a, b] <:+: t := by
  rw [List.infix_cons_iff]
  constructor
  · rintro (h | h)
    · left
      obtain ⟨u, hu⟩ := h
      simp at hu
      exact ⟨hu.1.symm, u, hu.2.symm⟩
    · exact Or.inr h
  · rintro (⟨rfl, u, rfl⟩ | h)
    · left; exact ⟨u, rfl⟩
    · exact Or.inr h

theorem not_pair_infix_tail {a b x : Nat} {t : List Nat} (h : ¬ [a, b] <:+: x :: t) :
    ¬ [a, b] <:+: t := fun h2 => h ((pair_infix_cons a b x t).2 (Or.inr h2))

theorem not_pair_infix_head {a b : Nat} {t : List Nat} (h : ¬ [a, b] <:+: a :: t) :
    ∀ u, t ≠ b :: u :=
  fun u hu => h ((pair_infix_cons a b a t).2 (Or.inl ⟨rfl, u, hu⟩))

/-! ## Inside a comment -/

/-- From a comment state, a text without `*/` (not starting with `/` when a
star has just been read) keeps the machine inside the comment and only its
newline characters are written. -/
theorem comment_body (c : List Nat) (st : Statetype) (hst : inComment st)
    (hno : ¬ [42, 47] <:+: c) (hhead : st = TWO_STAR → ∀ u, c ≠ 47 :: u) :
    inComment (runState st c) ∧ runOut st c = c.filter (fun b => b = 10) := by
  induction c generalizing st with
  | nil => exact ⟨hst, rfl⟩
  | cons x c ih =>
      have hno2 := not_pair_infix_tail hno
      rcases hst with rfl | rfl
      · by_cases h42 : x = 42
        · subst h42
          have := ih TWO_STAR (Or.inr rfl) hno2 (fun _ => not_pair_infix_head hno)
          simpa [runState, runOut, step, handleOneStarState] using this
        · have := ih ONE_STAR (Or.inl rfl) hno2 (by simp)
          by_cases h10 : x = 10
          · subst h10
            simpa [runState, runOut, step, handleOneStarState] using this
          · simpa [runState, runOut, step, handleOneStarState, h42, h10] using this
      · have h47 : x ≠ 47 := fun h => hhead rfl c (by rw [h])
        by_cases h42 : x = 42
        · subst h42
          have := ih TWO_STAR (Or.inr rfl) hno2 (fun _ => not_pair_infix_head hno)
          simpa [runState, runOut, step, handleTwoStarState] using this
        · have := ih ONE_STAR (Or.inl rfl) hno2 (by simp)
          by_cases h10 : x = 10
          · subst h10
            simpa [runState, runOut, step, handleTwoStarState] using this
          · simpa [runState, runOut, step, handleTwoStarState, h42, h10, h47] using this

theorem comment_close (st : Statetype) (hst : inComment st) :
    runState st [42, 47] = START ∧ runOut st [42, 47] = [] := by
  rcases hst with rfl | rfl <;> exact ⟨rfl, rfl⟩

theorem comment_open :
    runState START [47, 42] = ONE_STAR ∧ runOut START [47, 42] = [32] :=
  ⟨rfl, rfl⟩

/-- Output and final state of a run that opens a comment after `p` and reads a
text `c` without `*/` inside it. -/
theorem open_comment_run (p c : List Nat) (hp : runState START p = START)
    (hc : ¬ [42, 47] <:+: c) :
    inComment (runState START (p ++ [47, 42] ++ c)) ∧
      runOut START (p ++ [47, 42] ++ c) =
        runOut START p ++ [32] ++ c.filter (fun b => b = 10) := by
  have hb := comment_body c ONE_STAR (Or.inl rfl) hc (by simp)
  have e1 : runState START (p ++ [47, 42] ++ c) = runState ONE_STAR c := by
    rw [runState_append, runState_append, hp, comment_open.1]
  have e2 : runOut START (p ++ [47, 42] ++ c) =
      runOut START p ++ [32] ++ runOut ONE_STAR c := by
    rw [runOut_append, runOut_append, runState_append, hp, comment_open.1, comment_open.2]
  rw [e1, e2, hb.2]
  exact ⟨hb.1, rfl⟩

theorem main_stdout_of_START (p : List Nat) (hp : runState START p = START) :
    (main p).stdout = runOut START p := by
  rw [main_stdout, hp]; simp [flush]

theorem flush_of_inComment (st : Statetype) (h : inComment st) : flush st = [] := by
  rcases h with rfl | rfl <;> rfl

/-! ## Claims -/

/-- C1: comment removal is compositional. If the run on `p` ends in `START`
and `c` does not contain `*/`, then the output on `p ++ "/*" ++ c ++ "*/" ++ s`
is the output on `p`, one space, the newline characters of `c` in order, and
the output on `s`; the exit status is that of the run on `s` alone. -/
theorem C1_comment_compositional (p c s : List Nat)
    (hp : (mainLoop init p).state = START) (hc : ¬ [42, 47] <:+: c) :
    (main (p ++ [47, 42] ++ c ++ [42, 47] ++ s)).stdout =
        (main p).stdout ++ [32] ++ c.filter (fun b => b = 10) ++ (main s).stdout ∧
      (main (p ++ [47, 42] ++ c ++ [42, 47] ++ s)).exitCode = (main s).exitCode := by
  have hp2 := runState_of_mainLoop hp
  obtain ⟨hin, hout⟩ := open_comment_run p c hp2 hc
  obtain ⟨hcs, hco⟩ := comment_close _ hin
  have est : runState START (p ++ [47, 42] ++ c ++ [42, 47] ++ s) = runState START s := by
    rw [runState_append, runState_append, hcs]
  have eout : runOut START (p ++ [47, 42] ++ c ++ [42, 47] ++ s) =
      runOut START p ++ [32] ++ c.filter (fun b => b = 10) ++ runOut START s := by
    rw [runOut_append (s := p ++ [47, 42] ++ c ++ [42, 47]),
      runOut_append (s := p ++ [47, 42] ++ c), runState_append (s := p ++ [47, 42] ++ c),
      hcs, hco, hout]
    simp
  constructor
  · rw [main_stdout, est, eout, main_stdout_of_START p hp2, main_stdout]
    simp
  · rw [main_exitCode, est, main_exitCode]

/-- Witness of C1: `a/**/b` yields `a b`. -/
theorem C1_comment_compositional_witness :
    (mainLoop init [97]).state = START ∧ ¬ [42, 47] <:+: ([] : List Nat) ∧
      (main ([97] ++ [47, 42] ++ [] ++ [42, 47] ++ [98])).stdout = [97, 32, 98] ∧
      (main ([97] ++ [47, 42] ++ [] ++ [42, 47] ++ [98])).exitCode = 0 :=
  ⟨by decide, by decide, C1_comment_compositional [97] [] [98] (by decide) (by decide)⟩

/-- Inside a double-quoted literal every byte other than `"` and `\` is
written and the state is kept. -/
theorem dbQuotes_body (s : List Nat) (h34 : 34 ∉ s) (h92 : 92 ∉ s) :
    runState DB_QUOTES s = DB_QUOTES ∧ runOut DB_QUOTES s = s := by
  induction s with
  | nil => exact ⟨rfl, rfl⟩
  | cons x s ih =>
      simp only [List.mem_cons, not_or] at h34 h92
      have := ih h34.2 h92.2
      have a : x ≠ 34 := fun h => h34.1 h.symm
      have b : x ≠ 92 := fun h => h92.1 h.symm
      simpa [runState, runOut, step, handleDbQuotesState, a, b] using this

/-- C2: a double-quoted literal suppresses comment detection. For every body
`s` without a `"` byte and without a backslash byte, the run on
`"` ++ s ++ `"` writes exactly its input, ends in `START` and succeeds. -/
theorem C2_double_quoted_literal (s : List Nat) (h34 : 34 ∉ s) (h92 : 92 ∉ s) :
    main (34 :: s ++ [34]) =
        { stdout := 34 :: s ++ [34], stderr := none, exitCode := 0 } ∧
      (mainLoop init (34 :: s ++ [34])).state = START := by
  obtain ⟨hs, ho⟩ := dbQuotes_body s h34 h92
  have est : runState START (34 :: s ++ [34]) = START := by
    have : runState START (34 :: s ++ [34]) = runState (runState DB_QUOTES s) [34] := by
      rw [List.cons_append, ← runState_append]; rfl
    rw [this, hs]; rfl
  have eout : runOut START (34 :: s ++ [34]) = 34 :: s ++ [34] := by
    have : runOut START (34 :: s ++ [34]) =
        34 :: (runOut DB_QUOTES s ++ runOut (runState DB_QUOTES s) [34]) := by
      rw [List.cons_append, ← runOut_append]; rfl
    rw [this, hs, ho]; rfl
  constructor
  · rw [main_of_not_inComment _ (by rw [est]; decide), est, eout]
    simp [flush]
  · rw [mainLoop_state]; exact est

/-- Witness of C2: `"/*not a comment*/"` is unchanged. -/
theorem C2_double_quoted_literal_witness :
    34 ∉ [47, 42, 110, 111, 116, 32, 97, 32, 99, 111, 109, 109, 101, 110, 116, 42, 47] ∧
      92 ∉ [47, 42, 110, 111, 116, 32, 97, 32, 99, 111, 109, 109, 101, 110, 116, 42, 47] ∧
      main (34 :: [47, 42, 110, 111, 116, 32, 97, 32, 99, 111, 109, 109, 101, 110, 116, 42, 47]
          ++ [34]) =
        { stdout := 34 :: [47, 42, 110, 111, 116, 32, 97, 32, 99, 111, 109, 109, 101, 110,
            116, 42, 47] ++ [34],
          stderr := none, exitCode := 0 } ∧
      (mainLoop init (34 :: [47, 42, 110, 111, 116, 32, 97, 32, 99, 111, 109, 109, 101, 110,
          116, 42, 47] ++ [34])).state = START :=
  ⟨by decide, by decide, C2_double_quoted_literal _ (by decide) (by decide)⟩

theorem step_count_newline (st : Statetype) (c : Nat) :
    (step st c).2.count 10 = if c = 10 then 1 else 0 := by
  by_cases h : c = 10
  · subst h; cases st <;> rfl
  · rw [if_neg h]
    have h2 : ¬ (10 = c) := fun e => h e.symm
    cases st <;>
      simp only [step, handleStartState, handleSnQuotesState, handleSnQuoteEscState,
        handleDbQuotesState, handleDbQuoteEscState, handleOneSlashState,
        handleOneStarState, handleTwoStarState] <;>
      (try split_ifs) <;> simp [h, h2]

theorem runOut_count_newline (st : Statetype) (t : List Nat) :
    (runOut st t).count 10 = t.count 10 := by
  induction t generalizing st with
  | nil => rfl
  | cons c t ih =>
      rw [runOut, List.count_append, step_count_newline, ih, List.count_cons]
      by_cases h : c = 10
      · subst h; simp; omega
      · simp [h]

/-- C3: for every input, the number of newline bytes on standard output (the
end-of-file flush included) equals the number of newline bytes in the input,
whatever the exit status. -/
theorem C3_newline_count_preserved (input : List Nat) :
    (main input).stdout.count 10 = input.count 10 := by
  rw [main_stdout, List.count_append, runOut_count_newline]
  unfold flush
  split_ifs <;> simp

/-- Outside a comment, a text without `/*` (not starting with `*` when a slash
is buffered) never enters a comment, and what is written, the end-of-file flush
included, is the buffered slash (if any) followed by the text itself. -/
theorem run_without_opener (t : List Nat) (st : Statetype) (hst : ¬ inComment st)
    (hno : ¬ [47, 42] <:+: t) (hhead : st = ONE_SLASH → ∀ u, t ≠ 42 :: u) :
    ¬ inComment (runState st t) ∧
      runOut st t ++ flush (runState st t) = flush st ++ t := by
  induction t generalizing st with
  | nil => exact ⟨hst, by simp [runState, runOut]⟩
  | cons x t ih =>
      have hno2 := not_pair_infix_tail hno
      have key : ∀ st2 : Statetype, ¬ inComment st2 → st2 ≠ ONE_SLASH →
          (¬ inComment (runState st2 t) ∧ runOut st2 t ++ flush (runState st2 t) = t) := by
        intro st2 h1 h2
        have := ih st2 h1 hno2 (fun h => absurd h h2)
        simpa [flush, h2] using this
      have keyS : x = 47 →
          (¬ inComment (runState ONE_SLASH t) ∧
            runOut ONE_SLASH t ++ flush (runState ONE_SLASH t) = 47 :: t) := by
        intro hx
        subst hx
        have := ih ONE_SLASH (by decide) hno2 (fun _ => not_pair_infix_head hno)
        simpa [flush] using this
      cases st with
      | START =>
          simp only [runState, runOut, step, handleStartState]
          split_ifs with h1 h2 h3
          · simpa [flush] using key SN_QUOTES (by decide) (by decide)
          · simpa [flush] using key DB_QUOTES (by decide) (by decide)
          · simpa [flush, h3] using keyS h3
          · simpa [flush] using key START (by decide) (by decide)
      | SN_QUOTES =>
          simp only [runState, runOut, step, handleSnQuotesState]
          split_ifs with h1 h2
          · simpa [flush] using key SN_QUOTE_ESC (by decide) (by decide)
          · simpa [flush] using key START (by decide) (by decide)
          · simpa [flush] using key SN_QUOTES (by decide) (by decide)
      | SN_QUOTE_ESC =>
          simp only [runState, runOut, step, handleSnQuoteEscState]
          simpa [flush] using key SN_QUOTES (by decide) (by decide)
      | DB_QUOTES =>
          simp only [runState, runOut, step, handleDbQuotesState]
          split_ifs with h1 h2
          · simpa [flush] using key DB_QUOTE_ESC (by decide) (by decide)
          · simpa [flush] using key START (by decide) (by decide)
          · simpa [flush] using key DB_QUOTES (by decide) (by decide)
      | DB_QUOTE_ESC =>
          simp only [runState, runOut, step, handleDbQuoteEscState]
          simpa [flush] using key DB_QUOTES (by decide) (by decide)
      | ONE_SLASH =>
          have h42 : x ≠ 42 := fun h => hhead rfl t (by rw [h])
          simp only [runState, runOut, step, handleOneSlashState, if_neg h42]
          split_ifs with h1 h2 h3
          · simpa [flush, h1] using keyS h1
          · simpa [flush] using key DB_QUOTES (by decide) (by decide)
          · simpa [flush] using key SN_QUOTES (by decide) (by decide)
          · simpa [flush] using key START (by decide) (by decide)
      | ONE_STAR => exact absurd (Or.inl rfl) hst
      | TWO_STAR => exact absurd (Or.inr rfl) hst

/-- A run on a text without `/*` succeeds and copies its input. -/
theorem main_without_opener (t : List Nat) (hno : ¬ [47, 42] <:+: t) :
    main t = { stdout := t, stderr := none, exitCode := 0 } := by
  obtain ⟨h1, h2⟩ := run_without_opener t START (by decide) hno (by simp)
  rw [main_of_not_inComment t h1, h2]
  simp [flush]

/-- C4: identity on comment-free, quote-free text. For every input without
`/*`, without `*/`, without a single quote and without a double quote, the run
succeeds and the output, the end-of-file flush of a buffered slash included,
equals the input. -/
theorem C4_identity_comment_free_quote_free (input : List Nat)
    (hopen : ¬ [47, 42] <:+: input) (_hclose : ¬ [42, 47] <:+: input)
    (_hsq : 39 ∉ input) (_hdq : 34 ∉ input) :
    (main input).exitCode = 0 ∧ (main input).stdout = input := by
  rw [main_without_opener input hopen]
  exact ⟨rfl, rfl⟩

/-- Witness of C4: `a//b/` (a run of slashes and a trailing slash) is copied. -/
theorem C4_identity_comment_free_quote_free_witness :
    ¬ [47, 42] <:+: [97, 47, 47, 98, 47] ∧ ¬ [42, 47] <:+: [97, 47, 47, 98, 47] ∧
      39 ∉ [97, 47, 47, 98, 47] ∧ 34 ∉ [97, 47, 47, 98, 47] ∧
      (main [97, 47, 47, 98, 47]).exitCode = 0 ∧
      (main [97, 47, 47, 98, 47]).stdout = [97, 47, 47, 98, 47] :=
  ⟨by decide, by decide, by decide, by decide,
    C4_identity_comment_free_quote_free [97, 47, 47, 98, 47]
      (by decide) (by decide) (by decide) (by decide)⟩

/-- C5: end-of-file handling. With `m` the machine after the last byte of the
input: the run fails (exit status `EXIT_FAILURE`, the unterminated-comment
message on standard error) exactly when `m.state` is `ONE_STAR` or `TWO_STAR`,
and then nothing is appended to the output; when `m.state` is `ONE_SLASH` the
run succeeds and appends exactly one `/`; in each of the five other states it
succeeds and appends nothing. -/
theorem C5_end_of_stream (input : List Nat) :
    (((main input).exitCode = EXIT_FAILURE ∧ (main input).stderr.isSome = true) ↔
        ((mainLoop init input).state = ONE_STAR ∨ (mainLoop init input).state = TWO_STAR)) ∧
      ((mainLoop init input).state = ONE_STAR ∨ (mainLoop init input).state = TWO_STAR →
        (main input).stdout = (mainLoop init input).out) ∧
      ((mainLoop init input).state = ONE_SLASH →
        (main input).exitCode = 0 ∧ (main input).stderr = none ∧
          (main input).stdout = (mainLoop init input).out ++ [47]) ∧
      ((mainLoop init input).state = START ∨ (mainLoop init input).state = SN_QUOTES ∨
          (mainLoop init input).state = DB_QUOTES ∨
          (mainLoop init input).state = SN_QUOTE_ESC ∨
          (mainLoop init input).state = DB_QUOTE_ESC →
        (main input).exitCode = 0 ∧ (main input).stderr = none ∧
          (main input).stdout = (mainLoop init input).out) := by
  unfold main
  cases h : (mainLoop init input).state <;> simp [h, EXIT_FAILURE]

/-- C6: unterminated comment. If the run on `p` ends in `START` and `q` does
not contain `*/`, the run on `p ++ "/*" ++ q` fails with the
unterminated-comment message and its output is the output on `p`, one space and
the newline characters of `q` in order. -/
theorem C6_unterminated_comment (p q : List Nat)
    (hp : (mainLoop init p).state = START) (hq : ¬ [42, 47] <:+: q) :
    (main (p ++ [47, 42] ++ q)).exitCode = EXIT_FAILURE ∧
      (main (p ++ [47, 42] ++ q)).stderr.isSome = true ∧
      (main (p ++ [47, 42] ++ q)).stdout =
        (main p).stdout ++ [32] ++ q.filter (fun b => b = 10) := by
  have hp2 := runState_of_mainLoop hp
  obtain ⟨hin, hout⟩ := open_comment_run p q hp2 hq
  refine ⟨?_, ?_, ?_⟩
  · rw [main_exitCode, if_pos hin]
  · rw [main_stderr, if_pos hin]; rfl
  · rw [main_stdout, hout, main_stdout_of_START p hp2, flush_of_inComment _ hin]
    simp

/-- Witness of C6: `x/* u`, newline, `v` fails and writes `x`, a space and the
newline. -/
theorem C6_unterminated_comment_witness :
    (mainLoop init [120]).state = START ∧ ¬ [42, 47] <:+: [32, 117, 10, 118] ∧
      (main ([120] ++ [47, 42] ++ [32, 117, 10, 118])).exitCode = EXIT_FAILURE ∧
      (main ([120] ++ [47, 42] ++ [32, 117, 10, 118])).stderr.isSome = true ∧
      (main ([120] ++ [47, 42] ++ [32, 117, 10, 118])).stdout = [120, 32, 10] :=
  ⟨by decide, by decide,
    C6_unterminated_comment [120] [32, 117, 10, 118] (by decide) (by decide)⟩

/-- C7, evaluated at the input `/*`, newline, `*//*`: the prefix `/*`, newline,
`*/` ends in `START` and contains one newline, so the comment left open begins
on line 2; the run fails and the line number in its message,
`lineCount - commLine`, is 1. -/
theorem C7_reported_line_after_closed_comment :
    (mainLoop init [47, 42, 10, 42, 47]).state = START ∧
      ¬ [42, 47] <:+: ([] : List Nat) ∧
      (main ([47, 42, 10, 42, 47] ++ [47, 42] ++ [])).exitCode = EXIT_FAILURE ∧
      (main ([47, 42, 10, 42, 47] ++ [47, 42] ++ [])).stderr = some 1 ∧
      (1 : Int) + (List.count 10 [47, 42, 10, 42, 47] : Nat) = 2 ∧
      (mainLoop init ([47, 42, 10, 42, 47] ++ [47, 42] ++ [])).lineCount = 2 ∧
      (mainLoop init ([47, 42, 10, 42, 47] ++ [47, 42] ++ [])).commLine = 1 := by
  decide

/-- C8: trailing slash. If the run on `p` ends in `START`, the run on
`p ++ "/"` succeeds and its output is the output on `p` followed by `/`. -/
theorem C8_trailing_slash (p : List Nat) (hp : (mainLoop init p).state = START) :
    (main (p ++ [47])).exitCode = 0 ∧ (main (p ++ [47])).stderr = none ∧
      (main (p ++ [47])).stdout = (main p).stdout ++ [47] := by
  have hp2 := runState_of_mainLoop hp
  have est : runState START (p ++ [47]) = ONE_SLASH := by
    rw [runState_append, hp2]; rfl
  have eout : runOut START (p ++ [47]) = runOut START p := by
    rw [runOut_append, hp2]; simp [runOut, step, handleStartState]
  rw [main_of_not_inComment _ (by rw [est]; decide), est, eout, main_stdout_of_START p hp2]
  exact ⟨rfl, rfl, rfl⟩

/-- Witness of C8: `a/` is copied, the slash included. -/
theorem C8_trailing_slash_witness :
    (mainLoop init [97]).state = START ∧
      (main ([97] ++ [47])).exitCode = 0 ∧ (main ([97] ++ [47])).stderr = none ∧
      (main ([97] ++ [47])).stdout = [97, 47] :=
  ⟨by decide, C8_trailing_slash [97] (by decide)⟩

/-- C9: an escaped byte never ends a single-quoted literal. For every byte `b`
the run on quote, backslash, `b`, quote followed by ` /* c */` writes quote,
backslash, `b`, quote, the original space and one space for the comment, and
succeeds. -/
theorem C9_escaped_byte_in_single_quotes (b : Nat) :
    main [39, 92, b, 39, 32, 47, 42, 32, 99, 32, 42, 47] =
      { stdout := [39, 92, b, 39, 32, 32], stderr := none, exitCode := 0 } := by
  have est : runState START [39, 92, b, 39, 32, 47, 42, 32, 99, 32, 42, 47] = START := rfl
  have eout : runOut START [39, 92, b, 39, 32, 47, 42, 32, 99, 32, 42, 47] =
      [39, 92, b, 39, 32, 32] := rfl
  rw [main_of_not_inComment _ (by rw [est]; decide), est, eout]
  rfl

/-- C10: idempotence on already-decommented text. For every text `t` without
`/*` and without `*/`, the run on the output of the run on `t` has the same
output and the same exit status as the run on `t`. -/
theorem C10_idempotent_on_delimiter_free (t : List Nat)
    (hopen : ¬ [47, 42] <:+: t) (_hclose : ¬ [42, 47] <:+: t) :
    (main (main t).stdout).stdout = (main t).stdout ∧
      (main (main t).stdout).exitCode = (main t).exitCode := by
  have h : (main t).stdout = t := by rw [main_without_opener t hopen]
  rw [h]
  exact ⟨h, rfl⟩

/-- Witness of C10: the text `a"/"/'b` (quotes, a slash inside a literal, a
slash before a quote). -/
theorem C10_idempotent_on_delimiter_free_witness :
    ¬ [47, 42] <:+: [97, 34, 47, 34, 47, 39, 98] ∧
      ¬ [42, 47] <:+: [97, 34, 47, 34, 47, 39, 98] ∧
      (main (main [97, 34, 47, 34, 47, 39, 98]).stdout).stdout =
        (main [97, 34, 47, 34, 47, 39, 98]).stdout ∧
      (main (main [97, 34, 47, 34, 47, 39, 98]).stdout).exitCode =
        (main [97, 34, 47, 34, 47, 39, 98]).exitCode :=
  ⟨by decide, by decide,
    C10_idempotent_on_delimiter_free [97, 34, 47, 34, 47, 39, 98] (by decide) (by decide)⟩

/-! ## Star runs and the transition table -/

theorem stars_run (k : Nat) :
    runState TWO_STAR (List.replicate k 42) = TWO_STAR ∧
      runOut TWO_STAR (List.replicate k 42) = [] := by
  induction k with
  | zero => exact ⟨rfl, rfl⟩
  | succ k ih =>
      rw [List.replicate_succ]
      exact ih

theorem open_stars_run (k : Nat) (hk : 1 ≤ k) :
    runState START ([47, 42] ++ List.replicate k 42) = TWO_STAR ∧
      runOut START ([47, 42] ++ List.replicate k 42) = [32] := by
  obtain ⟨j, rfl⟩ : ∃ j, k = j + 1 := ⟨k - 1, by omega⟩
  rw [List.replicate_succ]
  have h := stars_run j
  constructor
  · exact h.1
  · show [32] ++ runOut TWO_STAR (List.replicate j 42) = [32]
    rw [h.2]; rfl

/-- C11: star runs. For every `n ≥ 1` the input `/*`, `n` further stars, `/`
writes exactly one space and succeeds, and after `/*` and any `k` of these
stars (`1 ≤ k ≤ n`) the machine is in `TWO_STAR`; the input `/*/` writes exactly
one space and fails with the unterminated-comment message for line 1. -/
theorem C11_star_runs (n : Nat) (hn : 1 ≤ n) :
    main ([47, 42] ++ List.replicate n 42 ++ [47]) =
        { stdout := [32], stderr := none, exitCode := 0 } ∧
      (∀ k, 1 ≤ k → k ≤ n →
        (mainLoop init ([47, 42] ++ List.replicate k 42)).state = TWO_STAR) ∧
      main [47, 42, 47] = { stdout := [32], stderr := some 1, exitCode := EXIT_FAILURE } := by
  obtain ⟨hs, ho⟩ := open_stars_run n hn
  have est : runState START ([47, 42] ++ List.replicate n 42 ++ [47]) = START := by
    rw [runState_append, hs]; rfl
  have eout : runOut START ([47, 42] ++ List.replicate n 42 ++ [47]) = [32] := by
    rw [runOut_append, hs, ho]; rfl
  refine ⟨?_, ?_, by decide⟩
  · rw [main_of_not_inComment _ (by rw [est]; decide), est, eout]
    rfl
  · intro k hk _
    rw [mainLoop_state]
    exact (open_stars_run k hk).1

/-- Witness of C11: `/***/` (two further stars). -/
theorem C11_star_runs_witness :
    1 ≤ 2 ∧
      main ([47, 42] ++ List.replicate 2 42 ++ [47]) =
        { stdout := [32], stderr := none, exitCode := 0 } ∧
      (∀ k, 1 ≤ k → k ≤ 2 →
        (mainLoop init ([47, 42] ++ List.replicate k 42)).state = TWO_STAR) ∧
      main [47, 42, 47] = { stdout := [32], stderr := some 1, exitCode := EXIT_FAILURE } :=
  ⟨by decide, C11_star_runs 2 (by decide)⟩

/-- C12 as stated fails: after `/**` the machine is in `TWO_STAR`, and reading a
newline there does not leave it in `TWO_STAR`. -/
theorem C12_newline_in_TWO_STAR_counterexample :
    (mainLoop init [47, 42, 42]).state = TWO_STAR ∧
      ¬ ((loopBody (mainLoop init [47, 42, 42]) 10).state = TWO_STAR ∧
          (loopBody (mainLoop init [47, 42, 42]) 10).out =
            (mainLoop init [47, 42, 42]).out ++ [10]) := by
  decide

/-- C12, amended: in state `TWO_STAR`, reading a newline writes that byte and
moves the machine to `ONE_STAR` (the star just read no longer precedes a
slash). -/
theorem C12_newline_in_TWO_STAR (m : Machine) (h : m.state = TWO_STAR) :
    (loopBody m 10).state = ONE_STAR ∧ (loopBody m 10).out = m.out ++ [10] ∧
      handleTwoStarState 10 = (ONE_STAR, [10]) := by
  rw [loopBody_state, loopBody_out, h]
  exact ⟨rfl, rfl, rfl⟩

/-- Witness of C12 (amended): the machine after `/**`. -/
theorem C12_newline_in_TWO_STAR_witness :
    (mainLoop init [47, 42, 42]).state = TWO_STAR ∧
      (loopBody (mainLoop init [47, 42, 42]) 10).state = ONE_STAR ∧
      (loopBody (mainLoop init [47, 42, 42]) 10).out =
        (mainLoop init [47, 42, 42]).out ++ [10] ∧
      handleTwoStarState 10 = (ONE_STAR, [10]) :=
  ⟨by decide, C12_newline_in_TWO_STAR (mainLoop init [47, 42, 42]) (by decide)⟩

/-- The `switch` of `main` against the table of the specification, away from the
cell (StarSeen, line terminator). -/
theorem step_eq_specTable (st : Statetype) (c : Nat) (h : ¬ (st = TWO_STAR ∧ c = 10)) :
    (toSpec (step st c).1, (step st c).2) = specTable (toSpec st) c := by
  cases st <;>
    simp only [step, handleStartState, handleSnQuotesState, handleSnQuoteEscState,
      handleDbQuotesState, handleDbQuoteEscState, handleOneSlashState,
      handleOneStarState, handleTwoStarState, specTable, byteClass, toSpec] <;>
    (try simp only [true_and] at h) <;>
    split_ifs <;> simp_all [toSpec]

theorem step_emission_length (st : Statetype) (c : Nat) : (step st c).2.length ≤ 2 := by
  cases st <;>
    simp only [step, handleStartState, handleSnQuotesState, handleSnQuoteEscState,
      handleDbQuotesState, handleDbQuoteEscState, handleOneSlashState,
      handleOneStarState, handleTwoStarState] <;>
    (try split_ifs) <;> simp

/-- C13: one iteration of the loop of `main` agrees with the transition table
of the specification on every state and byte other than (`TWO_STAR`, newline):
the next state and the bytes written are those of the table under the stated
naming of the states, and at most two bytes are written; in `ONE_SLASH`, a `/`
writes one `/` and keeps the state, a `*` writes one space, and any other byte
writes `/` and then the byte. -/
theorem C13_step_agrees_with_table (m : Machine) (c : Nat)
    (h : ¬ (m.state = TWO_STAR ∧ c = 10)) :
    toSpec (loopBody m c).state = (specTable (toSpec m.state) c).1 ∧
      (loopBody m c).out = m.out ++ (specTable (toSpec m.state) c).2 ∧
      (specTable (toSpec m.state) c).2.length ≤ 2 ∧
      (m.state = ONE_SLASH → c = 47 →
        (loopBody m c).state = ONE_SLASH ∧ (loopBody m c).out = m.out ++ [47]) ∧
      (m.state = ONE_SLASH → c = 42 → (loopBody m c).out = m.out ++ [32]) ∧
      (m.state = ONE_SLASH → c ≠ 47 → c ≠ 42 → (loopBody m c).out = m.out ++ [47, c]) := by
  have key := step_eq_specTable m.state c h
  have h1 : toSpec (step m.state c).1 = (specTable (toSpec m.state) c).1 := by
    rw [← key]
  have h2 : (step m.state c).2 = (specTable (toSpec m.state) c).2 := by
    rw [← key]
  rw [loopBody_state, loopBody_out]
  refine ⟨h1, by rw [h2], ?_, ?_, ?_, ?_⟩
  · rw [← h2]; exact step_emission_length _ _
  · intro hs hc
    rw [hs, hc]; exact ⟨rfl, rfl⟩
  · intro hs hc
    rw [hs, hc]; rfl
  · intro hs h47 h42
    rw [hs]
    simp only [step, handleOneSlashState, if_neg h47, if_neg h42]
    split_ifs <;> rfl

/-- Witness of C13: the machine after `x/` reading a double quote. -/
theorem C13_step_agrees_with_table_witness :
    ¬ ((mainLoop init [120, 47]).state = TWO_STAR ∧ 34 = 10) ∧
      toSpec (loopBody (mainLoop init [120, 47]) 34).state = SpecState.InDoubleQuote ∧
      (loopBody (mainLoop init [120, 47]) 34).out = [120] ++ [47, 34] ∧
      (specTable (toSpec (mainLoop init [120, 47]).state) 34).2.length ≤ 2 ∧
      ((mainLoop init [120, 47]).state = ONE_SLASH → 34 = 47 →
        (loopBody (mainLoop init [120, 47]) 34).state = ONE_SLASH ∧
          (loopBody (mainLoop init [120, 47]) 34).out =
            (mainLoop init [120, 47]).out ++ [47]) ∧
      ((mainLoop init [120, 47]).state = ONE_SLASH → 34 = 42 →
        (loopBody (mainLoop init [120, 47]) 34).out = (mainLoop init [120, 47]).out ++ [32]) ∧
      ((mainLoop init [120, 47]).state = ONE_SLASH → 34 ≠ 47 → 34 ≠ 42 →
        (loopBody (mainLoop init [120, 47]) 34).out =
          (mainLoop init [120, 47]).out ++ [47, 34]) :=
  ⟨by decide, C13_step_agrees_with_table (mainLoop init [120, 47]) 34 (by decide)⟩

/-! ## The two counters -/

theorem loopBody_lineCount (m : Machine) (c : Nat) :
    (loopBody m c).lineCount = m.lineCount + (if c = 10 then 1 else 0) := by
  rcases m with ⟨st, l, k, o⟩
  unfold loopBody
  cases st <;> by_cases h : c = 10 <;> simp [h]

theorem loopBody_commLine_inComment (m : Machine) (c : Nat) (h : inComment m.state) :
    (loopBody m c).commLine = m.commLine + (if c = 10 then 1 else 0) := by
  rcases m with ⟨st, l, k, o⟩
  unfold loopBody
  rcases h with h | h <;> simp only at h <;> subst h <;> by_cases h10 : c = 10 <;> simp [h10]

theorem loopBody_commLine_outside (m : Machine) (c : Nat) (h : ¬ inComment m.state) :
    (loopBody m c).commLine = if m.state = START ∧ c = 10 then 0 else m.commLine := by
  rcases m with ⟨st, l, k, o⟩
  unfold loopBody
  cases st <;> by_cases h10 : c = 10 <;> simp [h10] <;> exact absurd (by simp [inComment]) h

theorem mainLoop_lineCount (m : Machine) (t : List Nat) :
    (mainLoop m t).lineCount = m.lineCount + (t.count 10 : Nat) := by
  induction t generalizing m with
  | nil => simp [mainLoop_nil]
  | cons c t ih =>
      rw [mainLoop_cons, ih, loopBody_lineCount, List.count_cons]
      by_cases h : c = 10
      · subst h; simp; ring
      · simp [h]

/-- The counters after any text read from the initial machine: `commLine` is
never negative and stays below `lineCount`. -/
theorem counters_bounds (m : Machine) (t : List Nat)
    (h0 : 0 ≤ m.commLine) (h1 : m.commLine ≤ m.lineCount - 1) :
    0 ≤ (mainLoop m t).commLine ∧ (mainLoop m t).commLine ≤ (mainLoop m t).lineCount - 1 := by
  induction t generalizing m with
  | nil => exact ⟨h0, h1⟩
  | cons c t ih =>
      rw [mainLoop_cons]
      have hl := loopBody_lineCount m c
      by_cases hc : inComment m.state
      · have hk := loopBody_commLine_inComment m c hc
        apply ih
        · rw [hk]; split_ifs <;> omega
        · rw [hk, hl]; split_ifs <;> omega
      · have hk := loopBody_commLine_outside m c hc
        apply ih
        · rw [hk]; split_ifs <;> omega
        · rw [hk, hl]; split_ifs <;> omega

theorem init_counters_bounds (t : List Nat) :
    0 ≤ (mainLoop init t).commLine ∧
      (mainLoop init t).commLine ≤ (mainLoop init t).lineCount - 1 :=
  counters_bounds init t (by decide) (by decide)

/-- C14, evaluated on the input `/*`, newline, `*//`, newline: before its last
byte the machine is in `ONE_SLASH` with `commLine = 1`; the step that reads the
newline leaves it in `START` and `commLine` is still 1.  Followed by `/*`, the
run reports line 2 for a comment opened on line 3. -/
theorem C14_no_reset_from_ONE_SLASH :
    (mainLoop init [47, 42, 10, 42, 47, 47]).state = ONE_SLASH ∧
      (mainLoop init [47, 42, 10, 42, 47, 47]).commLine = 1 ∧
      (loopBody (mainLoop init [47, 42, 10, 42, 47, 47]) 10).state = START ∧
      (loopBody (mainLoop init [47, 42, 10, 42, 47, 47]) 10).commLine = 1 ∧
      (main [47, 42, 10, 42, 47, 47, 10, 47, 42]).stderr = some 2 ∧
      (1 : Int) + (List.count 10 [47, 42, 10, 42, 47, 47, 10] : Nat) = 3 := by
  decide

/-- C15: counter invariant. After any text `p` read from the initial machine,
`lineCount` is 1 plus the number of newlines of `p`; the next iteration of the
loop increases `commLine` only when the state before it is `ONE_STAR` or
`TWO_STAR` and the byte is a newline, and then by exactly 1. -/
theorem C15_counter_invariant (p : List Nat) (c : Nat) :
    (mainLoop init p).lineCount = 1 + (p.count 10 : Nat) ∧
      ((mainLoop init p).commLine < (loopBody (mainLoop init p) c).commLine →
        inComment (mainLoop init p).state ∧ c = 10) ∧
      (inComment (mainLoop init p).state ∧ c = 10 →
        (loopBody (mainLoop init p) c).commLine = (mainLoop init p).commLine + 1) := by
  have hb := (init_counters_bounds p).1
  refine ⟨by rw [mainLoop_lineCount]; rfl, ?_, ?_⟩
  · intro hlt
    by_cases hc : inComment (mainLoop init p).state
    · rw [loopBody_commLine_inComment _ _ hc] at hlt
      refine ⟨hc, ?_⟩
      by_contra h10
      rw [if_neg h10] at hlt
      omega
    · rw [loopBody_commLine_outside _ _ hc] at hlt
      split_ifs at hlt <;> omega
  · rintro ⟨hc, h10⟩
    rw [loopBody_commLine_inComment _ _ hc, if_pos h10]

/-- One step inside a comment on a text without `*/`: the machine stays inside
the comment, and is in `TWO_STAR` only before a byte other than `/`. -/
theorem comment_step (st : Statetype) (x : Nat) (c : List Nat) (hst : inComment st)
    (hno : ¬ [42, 47] <:+: x :: c) (hhead : st = TWO_STAR → x ≠ 47) :
    inComment (step st x).1 ∧ ((step st x).1 = TWO_STAR → ∀ u, c ≠ 47 :: u) := by
  by_cases h42 : x = 42
  · subst h42
    have hh := not_pair_infix_head hno
    rcases hst with rfl | rfl <;> exact ⟨Or.inr rfl, fun _ => hh⟩
  · rcases hst with rfl | rfl
    · simp only [step, handleOneStarState, if_neg h42]
      split_ifs <;> exact ⟨Or.inl rfl, fun h => by cases h⟩
    · have h47 := hhead rfl
      simp only [step, handleTwoStarState, if_neg h42, if_neg h47]
      exact ⟨Or.inl rfl, fun h => by cases h⟩

/-- Inside a comment, on a text without `*/`, `commLine` grows by the number
of newlines read. -/
theorem comment_counters (c : List Nat) (m : Machine) (hst : inComment m.state)
    (hno : ¬ [42, 47] <:+: c) (hhead : m.state = TWO_STAR → ∀ u, c ≠ 47 :: u) :
    (mainLoop m c).commLine = m.commLine + (c.count 10 : Nat) := by
  induction c generalizing m with
  | nil => simp [mainLoop_nil]
  | cons x c ih =>
      have hs := comment_step m.state x c hst hno
        (fun h e => hhead h c (by rw [e]))
      rw [mainLoop_cons,
        ih (loopBody m x) (by rw [loopBody_state]; exact hs.1)
          (not_pair_infix_tail hno) (by rw [loopBody_state]; exact hs.2),
        loopBody_commLine_inComment m x hst, List.count_cons]
      by_cases h : x = 10
      · subst h; simp; ring
      · simp [h]

/-- The line number reported for a comment opened after `p` and never closed:
1 plus the newlines of `p`, minus the value of `commLine` after `p`. -/
theorem reported_line (p q : List Nat) (hp : (mainLoop init p).state = START)
    (hq : ¬ [42, 47] <:+: q) :
    (main (p ++ [47, 42] ++ q)).stderr =
      some (1 + (p.count 10 : Nat) - (mainLoop init p).commLine) := by
  have hp2 := runState_of_mainLoop hp
  obtain ⟨hin, _⟩ := open_comment_run p q hp2 hq
  rw [main_stderr, if_pos hin]
  have e : mainLoop init (p ++ [47, 42] ++ q) =
      mainLoop (mainLoop (mainLoop init p) [47, 42]) q := by
    rw [mainLoop_append, mainLoop_append]
  have hm : (mainLoop (mainLoop init p) [47, 42]).state = ONE_STAR := by
    rw [mainLoop_state, hp]; rfl
  have hk : (mainLoop (mainLoop init p) [47, 42]).commLine = (mainLoop init p).commLine := by
    rw [mainLoop_cons, mainLoop_cons, mainLoop_nil]
    have h1 : ¬ inComment (mainLoop init p).state := by rw [hp]; decide
    have h2 : ¬ inComment (loopBody (mainLoop init p) 47).state := by
      rw [loopBody_state, hp]; decide
    rw [loopBody_commLine_outside _ _ h2, loopBody_commLine_outside _ _ h1]
    simp
  have hl : (mainLoop (mainLoop init p) [47, 42]).lineCount = 1 + (p.count 10 : Nat) := by
    rw [mainLoop_lineCount, mainLoop_lineCount]
    simp [init]
  rw [e, mainLoop_lineCount, hl,
    comment_counters q _ (by rw [hm]; exact Or.inl rfl) hq (by rw [hm]; simp), hk]
  congr 1
  ring

/-- As long as no comment state is visited, `commLine` keeps the value 0. -/
theorem commLine_zero_outside (t : List Nat) (m : Machine) (h0 : m.commLine = 0)
    (hnever : ∀ t2, t2 <+: t → ¬ inComment (mainLoop m t2).state) :
    (mainLoop m t).commLine = 0 := by
  induction t generalizing m with
  | nil => exact h0
  | cons c t ih =>
      rw [mainLoop_cons]
      apply ih
      · have hm : ¬ inComment m.state := hnever [] (List.nil_prefix)
        rw [loopBody_commLine_outside m c hm]
        split_ifs
        · rfl
        · exact h0
      · intro t2 ht2
        have := hnever (c :: t2) ((List.prefix_cons_inj c).2 ht2)
        rwa [mainLoop_cons] at this

/-- With unbounded counters: if the run on `p` ends in `START` and visits no
comment state, and `q` does not contain `*/`, the line number reported for
`p ++ "/*" ++ q` is 1 plus the number of newlines of `p`. -/
theorem reported_line_single_region (p q : List Nat)
    (hp : (mainLoop init p).state = START)
    (hnever : ∀ p2, p2 <+: p → ¬ inComment (mainLoop init p2).state)
    (hq : ¬ [42, 47] <:+: q) :
    (main (p ++ [47, 42] ++ q)).stderr = some (1 + ((p.count 10 : Nat) : Int)) ∧
      (main (p ++ [47, 42] ++ q)).exitCode = EXIT_FAILURE := by
  have h0 := commLine_zero_outside p init rfl hnever
  constructor
  · rw [reported_line p q hp hq, h0]
    simp
  · rw [main_exitCode, if_pos (open_comment_run p q (runState_of_mainLoop hp) hq).1]

/-! ## The counters as 32-bit `int`s -/

theorem int32_add_left (x y : Int) : int32 (int32 x + y) = int32 (x + y) := by
  unfold int32; omega

theorem int32_sub (x y : Int) : int32 (int32 x - int32 y) = int32 (x - y) := by
  unfold int32; omega

theorem int32_of_range (x : Int) (h1 : -2147483648 ≤ x) (h2 : x < 2147483648) :
    int32 x = x := by
  unfold int32; omega

theorem wrapMachine_init : wrapMachine init = init := by decide

/-- One iteration with 32-bit counters is the iteration with unbounded counters
followed by the reduction of both counters. -/
theorem loopBody32_wrapMachine (m : Machine) (c : Nat) :
    loopBody32 (wrapMachine m) c = wrapMachine (loopBody m c) := by
  rcases m with ⟨st, l, k, o⟩
  have e0 : int32 0 = 0 := by decide
  unfold loopBody32 loopBody wrapMachine
  cases st <;> by_cases h : c = 10 <;> simp [h, int32_add_left, e0]

theorem mainLoop32_wrapMachine (m : Machine) (t : List Nat) :
    mainLoop32 (wrapMachine m) t = wrapMachine (mainLoop m t) := by
  induction t generalizing m with
  | nil => rfl
  | cons c t ih =>
      show mainLoop32 (loopBody32 (wrapMachine m) c) t = wrapMachine (mainLoop (loopBody m c) t)
      rw [loopBody32_wrapMachine, ih]

theorem mainLoop32_init (t : List Nat) :
    mainLoop32 init t = wrapMachine (mainLoop init t) := by
  rw [← mainLoop32_wrapMachine, wrapMachine_init]

/-- The run with 32-bit counters against the run with unbounded counters: same
output, same exit status, the reported line reduced by `int32`. -/
theorem main32_eq (t : List Nat) :
    main32 t = { stdout := (main t).stdout, stderr := (main t).stderr.map int32,
                 exitCode := (main t).exitCode } := by
  unfold main32 main
  rw [mainLoop32_init]
  simp only [wrapMachine]
  cases (mainLoop init t).state <;> simp [int32_sub]

theorem mainLoop32_state (t : List Nat) :
    (mainLoop32 init t).state = (mainLoop init t).state := by
  rw [mainLoop32_init]; rfl

/-- A text made of newline characters only keeps the machine in `START`. -/
theorem newlines_stay_START (t : List Nat) (h : ∀ b ∈ t, b = 10) :
    runState START t = START := by
  induction t with
  | nil => rfl
  | cons c t ih =>
      have hc : c = 10 := h c (List.mem_cons_self _ _)
      subst hc
      exact ih (fun b hb => h b (List.mem_cons_of_mem _ hb))

/-- The run with 32-bit counters on `n` newline characters followed by `/*`:
no comment state before the `/*`, and the number printed is the `int` value of
`1 + n`. -/
theorem newlines_then_open (n : Nat) :
    (mainLoop32 init (List.replicate n 10)).state = START ∧
      (∀ p2, p2 <+: List.replicate n 10 → ¬ inComment (mainLoop32 init p2).state) ∧
      (main32 (List.replicate n 10 ++ [47, 42] ++ [])).stderr = some (int32 (1 + (n : Int))) ∧
      (List.replicate n 10).count 10 = n := by
  have hall : ∀ p2, p2 <+: List.replicate n 10 → runState START p2 = START := by
    intro p2 hp2
    exact newlines_stay_START p2 (fun b hb => List.eq_of_mem_replicate (hp2.subset hb))
  have hst : ∀ p2, p2 <+: List.replicate n 10 → (mainLoop init p2).state = START := by
    intro p2 hp2
    rw [mainLoop_state]; exact hall p2 hp2
  have hcount : (List.replicate n 10).count 10 = n := List.count_replicate_self 10 n
  refine ⟨?_, ?_, ?_, hcount⟩
  · rw [mainLoop32_state]; exact hst _ (List.prefix_refl _)
  · intro p2 hp2
    rw [mainLoop32_state, hst p2 hp2]; decide
  · have h := (reported_line_single_region (List.replicate n 10) []
      (hst _ (List.prefix_refl _))
      (fun p2 hp2 => by rw [hst p2 hp2]; decide) (by decide)).1
    rw [main32_eq]
    simp only [h, hcount, Option.map_some']

/-- C16 as stated fails once `lineCount` overflows: on `2^31 - 1` newline
characters followed by `/*` the run visits no comment state before the `/*`,
which is on line `2^31`, and the number printed is `-2^31`. -/
theorem C16_reported_line_single_region_counterexample :
    (mainLoop32 init (List.replicate 2147483647 10)).state = START ∧
      (∀ p2, p2 <+: List.replicate 2147483647 10 →
        ¬ inComment (mainLoop32 init p2).state) ∧
      ¬ [42, 47] <:+: ([] : List Nat) ∧
      (main32 (List.replicate 2147483647 10 ++ [47, 42] ++ [])).stderr =
        some (-2147483648) ∧
      (main32 (List.replicate 2147483647 10 ++ [47, 42] ++ [])).stderr ≠
        some (1 + (((List.replicate 2147483647 10).count 10 : Nat) : Int)) := by
  obtain ⟨h1, h2, h3, h4⟩ := newlines_then_open 2147483647
  have e : int32 (1 + ((2147483647 : Nat) : Int)) = -2147483648 := by decide
  rw [e] at h3
  refine ⟨h1, h2, by decide, h3, ?_⟩
  rw [h3, h4]
  decide

/-- C16, amended: line reporting with a single comment region, counters as
32-bit `int`s. If the run on `p` ends in `START` and visits neither `ONE_STAR`
nor `TWO_STAR`, `q` does not contain `*/`, and `p` holds fewer than `2^31 - 1`
newline characters, the run on `p ++ "/*" ++ q` fails and the line number it
reports is 1 plus the number of newlines of `p`. -/
theorem C16_reported_line_single_region (p q : List Nat)
    (hp : (mainLoop32 init p).state = START)
    (hnever : ∀ p2, p2 <+: p → ¬ inComment (mainLoop32 init p2).state)
    (hq : ¬ [42, 47] <:+: q) (hsmall : p.count 10 < 2147483647) :
    (main32 (p ++ [47, 42] ++ q)).stderr = some (1 + ((p.count 10 : Nat) : Int)) ∧
      (main32 (p ++ [47, 42] ++ q)).exitCode = EXIT_FAILURE := by
  rw [mainLoop32_state] at hp
  have hnever2 : ∀ p2, p2 <+: p → ¬ inComment (mainLoop init p2).state := by
    intro p2 hp2
    rw [← mainLoop32_state]; exact hnever p2 hp2
  obtain ⟨h1, h2⟩ := reported_line_single_region p q hp hnever2 hq
  rw [main32_eq]
  refine ⟨?_, h2⟩
  simp only [h1, Option.map_some']
  rw [int32_of_range _ (by omega) (by omega)]

/-- Witness of C16 (amended): `a`, newline, `"/*"` followed by `/*`, newline,
`x`: the comment left open begins on line 2. -/
theorem C16_reported_line_single_region_witness :
    (mainLoop32 init [97, 10, 34, 47, 42, 34]).state = START ∧
      (∀ p2, p2 <+: [97, 10, 34, 47, 42, 34] → ¬ inComment (mainLoop32 init p2).state) ∧
      ¬ [42, 47] <:+: [10, 120] ∧
      List.count 10 [97, 10, 34, 47, 42, 34] < 2147483647 ∧
      (main32 ([97, 10, 34, 47, 42, 34] ++ [47, 42] ++ [10, 120])).stderr = some 2 ∧
      (main32 ([97, 10, 34, 47, 42, 34] ++ [47, 42] ++ [10, 120])).exitCode = EXIT_FAILURE :=
  have hnever : ∀ p2, p2 <+: [97, 10, 34, 47, 42, 34] →
      ¬ inComment (mainLoop32 init p2).state := by
    intro p2 h
    rw [← List.mem_inits] at h
    revert p2
    decide
  ⟨by decide, hnever, by decide, by decide,
    C16_reported_line_single_region [97, 10, 34, 47, 42, 34] [10, 120]
      (by decide) hnever (by decide) (by decide)⟩

/-- C18: the reported line never exceeds the line on which the comment was
opened. If the run on `p` ends in `START` and `q` does not contain `*/`, the
run on `p ++ "/*" ++ q` reports a line number `N` with
`N ≤ 1 + (number of newlines of p)`. -/
theorem C18_reported_line_upper_bound (p q : List Nat)
    (hp : (mainLoop init p).state = START) (hq : ¬ [42, 47] <:+: q) :
    ∃ N : Int, (main (p ++ [47, 42] ++ q)).stderr = some N ∧ N ≤ 1 + (p.count 10 : Nat) := by
  refine ⟨_, reported_line p q hp hq, ?_⟩
  have := (init_counters_bounds p).1
  omega

/-- Witness of C18: `/*`, newline, `*//*` reports line 1, the comment left open
begins on line 2. -/
theorem C18_reported_line_upper_bound_witness :
    (mainLoop init [47, 42, 10, 42, 47]).state = START ∧ ¬ [42, 47] <:+: ([] : List Nat) ∧
      ∃ N : Int, (main ([47, 42, 10, 42, 47] ++ [47, 42] ++ [])).stderr = some N ∧
        N ≤ 1 + (List.count 10 [47, 42, 10, 42, 47] : Nat) :=
  ⟨by decide, by decide,
    C18_reported_line_upper_bound [47, 42, 10, 42, 47] [] (by decide) (by decide)⟩

/-- C19: the reported line is a valid line number. After every text `p` read
from the initial machine `0 ≤ commLine ≤ lineCount - 1`; whenever the run on
`input` fails, a line number `N` is reported and
`1 ≤ N ≤ 1 + (number of newlines of input)` (counters unbounded). -/
theorem C19_reported_line_valid (input : List Nat) :
    (∀ p, p <+: input →
        0 ≤ (mainLoop init p).commLine ∧
          (mainLoop init p).commLine ≤ (mainLoop init p).lineCount - 1) ∧
      ((main input).exitCode = EXIT_FAILURE →
        ∃ N : Int, (main input).stderr = some N ∧ 1 ≤ N ∧
          N ≤ 1 + (input.count 10 : Nat)) := by
  refine ⟨fun p _ => init_counters_bounds p, ?_⟩
  intro hfail
  have hin : inComment (runState START input) := by
    by_contra hn
    rw [main_exitCode, if_neg hn] at hfail
    exact absurd hfail (by decide)
  refine ⟨_, by rw [main_stderr, if_pos hin], ?_, ?_⟩
  · have := init_counters_bounds input
    omega
  · have h1 := init_counters_bounds input
    have h2 : (mainLoop init input).lineCount = 1 + (input.count 10 : Nat) := by
      rw [mainLoop_lineCount]; rfl
    omega

/-- What is written from state `st` on `t`, the end-of-file flush included, is
no longer than `t` plus the slash buffered in `st`. -/
theorem run_length (t : List Nat) (st : Statetype) :
    (runOut st t ++ flush (runState st t)).length ≤ (flush st).length + t.length := by
  induction t generalizing st with
  | nil => simp [runOut, runState]
  | cons c t ih =>
      have h := ih (step st c).1
      have hs : (step st c).2.length + (flush (step st c).1).length ≤
          (flush st).length + 1 := by
        cases st <;>
          simp only [step, handleStartState, handleSnQuotesState, handleSnQuoteEscState,
            handleDbQuotesState, handleDbQuoteEscState, handleOneSlashState,
            handleOneStarState, handleTwoStarState] <;>
          (try split_ifs) <;> simp [flush]
      simp only [runOut, runState, List.length_append, List.length_cons] at h ⊢
      omega

/-- C20: the filter never lengthens its input. For every input the output, the
end-of-file flush of a buffered slash included, is at most as long as the
input. -/
theorem C20_output_not_longer (input : List Nat) :
    (main input).stdout.length ≤ input.length := by
  rw [main_stdout]
  have := run_length input START
  simpa [flush] using this

/-! ## Running the program on its own output -/

theorem neverInComment_head (st : Statetype) (t : List Nat) (h : neverInComment st t) :
    ¬ inComment st := by
  cases t with
  | nil => exact h
  | cons c t => exact h.1

theorem neverInComment_append (st : Statetype) (s t : List Nat) :
    neverInComment st (s ++ t) ↔
      neverInComment st s ∧ neverInComment (runState st s) t := by
  induction s generalizing st with
  | nil =>
      constructor
      · intro h; exact ⟨neverInComment_head st t h, h⟩
      · intro h; exact h.2
  | cons c s ih =>
      show (¬ inComment st ∧ neverInComment (step st c).1 (s ++ t)) ↔
        (¬ inComment st ∧ neverInComment (step st c).1 s) ∧
          neverInComment (runState (step st c).1 s) t
      rw [ih, and_assoc]

theorem neverInComment_last (st : Statetype) (t : List Nat) (h : neverInComment st t) :
    ¬ inComment (runState st t) := by
  induction t generalizing st with
  | nil => exact h
  | cons c t ih => exact ih _ h.2

theorem neverInComment_initial (st : Statetype) (t p : List Nat)
    (h : neverInComment st t) (hp : p <+: t) : ¬ inComment (runState st p) := by
  obtain ⟨u, rfl⟩ := hp
  exact neverInComment_last st p ((neverInComment_append st p u).1 h).1

/-- One step of the first run, followed by the second run on what that step
has written. -/
theorem rerun_step (st st2 : Statetype) (c : Nat) (h : Rerun st st2) :
    Rerun (step st c).1 (runState st2 (step st c).2) ∧
      runOut st2 (step st c).2 ++ flush (runState st2 (step st c).2) =
        flush st2 ++ (step st c).2 ∧
      neverInComment st2 (step st c).2 := by
  cases st <;> cases st2 <;>
    first
    | exact absurd h (by decide)
    | (simp only [step, handleStartState, handleSnQuotesState, handleSnQuoteEscState,
        handleDbQuotesState, handleDbQuoteEscState, handleOneSlashState,
        handleOneStarState, handleTwoStarState]
       (try split_ifs) <;>
       simp_all [Rerun, inComment, runState, runOut, flush, neverInComment, step,
         handleStartState, handleSnQuotesState, handleSnQuoteEscState,
         handleDbQuotesState, handleDbQuoteEscState, handleOneSlashState])

/-- The second run over everything the first run writes on `t`. -/
theorem rerun_run (t : List Nat) (st st2 : Statetype) (h : Rerun st st2) :
    Rerun (runState st t) (runState st2 (runOut st t)) ∧
      runOut st2 (runOut st t) ++ flush (runState st2 (runOut st t)) =
        flush st2 ++ runOut st t ∧
      neverInComment st2 (runOut st t) := by
  induction t generalizing st st2 with
  | nil =>
      refine ⟨h, by simp [runOut, runState], ?_⟩
      show ¬ inComment st2
      revert h
      cases st <;> cases st2 <;> decide
  | cons c t ih =>
      obtain ⟨h1, h2, h3⟩ := rerun_step st st2 c h
      obtain ⟨k1, k2, k3⟩ := ih (step st c).1 (runState st2 (step st c).2) h1
      simp only [runState, runOut]
      rw [runState_append, runOut_append, neverInComment_append]
      refine ⟨k1, ?_, h3, k3⟩
      rw [List.append_assoc, k2, ← List.append_assoc, h2, List.append_assoc]

/-- The second run over the whole output of the first, flush included. -/
theorem rerun_output (x : List Nat) :
    neverInComment START (runOut START x ++ flush (runState START x)) ∧
      runOut START (runOut START x ++ flush (runState START x)) ++
          flush (runState START (runOut START x ++ flush (runState START x))) =
        runOut START x ++ flush (runState START x) := by
  obtain ⟨k1, k2, k3⟩ := rerun_run x START START (by decide)
  rw [neverInComment_append, runOut_append, runState_append]
  generalize runState START x = st at k1 k2 ⊢
  generalize runState START (runOut START x) = st2 at k1 k2 ⊢
  generalize runOut START (runOut START x) = o2 at k2 ⊢
  generalize runOut START x = o at k2 k3 ⊢
  have hfl : flush START = [] := rfl
  rw [hfl, List.nil_append] at k2
  refine ⟨⟨k3, ?_⟩, ?_⟩
  · revert k1
    cases st <;> cases st2 <;> simp [Rerun, inComment, flush, neverInComment, step,
      handleStartState, handleOneSlashState]
  · rw [← k2]
    revert k1
    cases st <;> cases st2 <;> simp [Rerun, inComment, flush, runOut, runState, step,
      handleStartState, handleOneSlashState]

/-- C17: unconditional idempotence of the output. For every input `x`, whether
or not the run on `x` fails, the run on the output of `x` visits neither
`ONE_STAR` nor `TWO_STAR`, succeeds and writes exactly the output of `x`. -/
theorem C17_output_idempotent (x : List Nat) :
    (∀ p, p <+: (main x).stdout → ¬ inComment (mainLoop init p).state) ∧
      main (main x).stdout = { stdout := (main x).stdout, stderr := none, exitCode := 0 } := by
  obtain ⟨h1, h2⟩ := rerun_output x
  rw [main_stdout]
  constructor
  · intro p hp
    rw [mainLoop_state]
    exact neverInComment_initial START _ p h1 hp
  · rw [main_of_not_inComment _ (neverInComment_last _ _ h1), h2]

end Decomment
